import Mathlib

/-!
Verification of the submission-and-reconciliation pipeline of
`form-autofill-automation` (files `auto_submit_gform.py` and
`verify_submissions.py`) via a shallow embedding in Lean 4.

Modelling conventions:
* A ledger row written by `write_log_row` is a `LogRecord`.  The `timestamp`
  column is wall-clock output and carries no information used by any reader,
  so it is elided.  The `payload_preview` column is stored by the code as the
  Python `str()` rendering of the truncated payload dict; we keep the
  truncated key/value snapshot itself (`preview`), since no reader in the
  claims parses the string back.
* The on-disk state of the ledger file, as seen by `pandas.read_csv` inside
  `read_resume_index`, is a `LedgerFile`: the file may be absent, may fail to
  tokenize (e.g. a ragged row makes `pd.read_csv` raise `ParserError`; the
  code has no try/except there, so the exception propagates), or parses into
  a table that may or may not carry the `row_index` / `success` columns.
* The network is an oracle `Nat → AttemptOutcome` giving, per underlying
  attempt, either the HTTP response of `session.post` or a transport-level
  exception.  `random.random()` draws are an input stream `Nat → ℚ`; the
  float `backoff_base` is a rational.  `time.sleep` calls are recorded in a
  trace field.  Fallible Python code is embedded with `Except`.
-/

/-- One row of `submissions_log.csv`, as written by `write_log_row` in
`auto_submit_gform.py` (columns `row_index`, `Name`, `Email`, `success`,
`status`, `payload_preview`; the `timestamp` column is elided, see above). -/
structure LogRecord where
  row_index : Nat
  name : String
  email : String
  success : Bool
  status : Option Nat
  preview : List (String × String)
deriving DecidableEq

/-- The ledger file as seen by `pandas.read_csv` in `read_resume_index`:
absent, unparseable (`pd.read_csv` raises, e.g. on a ragged row such as
`timestamp,row_index\n1,2\n1,2,3` — `ParserError: Error tokenizing data`),
or parsed into a table whose header may or may not contain the `row_index`
and `success` columns. -/
inductive LedgerFile where
  | absent
  | unparseable
  | parsed (hasRowIndex : Bool) (hasSuccess : Bool) (records : List LogRecord)
deriving DecidableEq

/-- `read_resume_index` from `auto_submit_gform.py` (lines 103-114):
missing file → 0; `pd.read_csv` raise propagates (modelled as `Except.error`);
missing `success` or `row_index` column → 0; no success row → 0; otherwise
`max(row_index of success rows) + 1`.  The pandas dtype split
(`== True` for bool dtype vs. lowercase string compare) collapses onto the
single `Bool` field `success`, since `write_log_row` emits Python
`True`/`False` which round-trip to pandas bool. -/
def read_resume_index : LedgerFile → Except String Nat
  | LedgerFile.absent => Except.ok 0
  | LedgerFile.unparseable => Except.error "pandas.errors.ParserError"
  | LedgerFile.parsed hasRowIndex hasSuccess records =>
    if !hasSuccess || !hasRowIndex then
      Except.ok 0
    else
      let success_rows := records.filter fun r => r.success
      if success_rows.isEmpty then
        Except.ok 0
      else
        Except.ok (((success_rows.map fun r => r.row_index).foldl max 0) + 1)

/-- `verify_submissions.py` lines 60-61: `missing_indices = [i for i in
range(total_rows) if i not in submitted_row_indices]` where
`submitted_row_indices` collects the `row_index` of the log records whose
`success` field reads `true` (the `sorted(...unique())` normalisation only
reorders and deduplicates, leaving membership unchanged). -/
def missing_indices (log : List LogRecord) (total_rows : Nat) : List Nat :=
  (List.range total_rows).filter fun i =>
    !(((log.filter fun r => r.success).map fun r => r.row_index).contains i)

/-- `verify_submissions.py` line 106: `failed_indices =
sorted(set(missing_indices) | set(failures['row_index']))`, where `failures`
is every log record whose `success` field does not read `true`.  The
set-union-then-sort is modelled as append, deduplicate, then sort ascending,
which produces the same sorted duplicate-free list. -/
def failed_indices (log : List LogRecord) (total_rows : Nat) : List Nat :=
  ((missing_indices log total_rows ++
    (log.filter fun r => !r.success).map fun r => r.row_index).dedup).insertionSort
    (fun a b => a ≤ b)

/-- `verify_submissions.py` line 108: `df_failed = src.iloc[failed_indices]`,
the retry-candidate table written to `failed_rows.csv`.  pandas `.iloc` with
a list of positional indices first validates that every index is in bounds
and raises `IndexError: positional indexers are out-of-bounds` otherwise —
reachable, since the ledger may hold a failure record whose `row_index` is
at or beyond `len(src)`; the raise is modelled with `Except`, as for
`read_resume_index`.  When all indices are in bounds it selects exactly the
rows at those positions, in order. -/
def failed_rows {α : Type} (src : List α) (log : List LogRecord) :
    Except String (List α) :=
  if h : ∀ i ∈ failed_indices log src.length, i < src.length then
    Except.ok ((failed_indices log src.length).pmap
      (fun i hi => src.get ⟨i, hi⟩) h)
  else
    Except.error "IndexError: positional indexers are out-of-bounds"

/-- A two-record ledger for row index 0: first a failure, then a success. -/
def c2_log : List LogRecord :=
  [⟨0, "A", "a@x", false, some 500, []⟩, ⟨0, "A", "a@x", true, some 200, []⟩]

/-- Outcome of one underlying `session.post` call inside `post_with_retries`:
either an HTTP response (status code and body), or a raised transport-level
exception (timeout, DNS failure, connection reset), which the code catches. -/
inductive AttemptOutcome where
  | response (status : Nat) (body : String)
  | exception
deriving DecidableEq

/-- Per-attempt success classification of `post_with_retries` (line 85):
an attempt counts as success exactly when it produced a response with
`200 <= status < 400`; an exception never does. -/
def qualifies : AttemptOutcome → Bool
  | AttemptOutcome.response status _ => decide (200 ≤ status ∧ status < 400)
  | AttemptOutcome.exception => false

/-- The value and trace of one `post_with_retries` call: the returned triple
`(success, status, preview)`, plus the number of underlying attempts
performed and the list of `time.sleep` durations, in order. -/
structure PostResult where
  success : Bool
  status : Option Nat
  preview : Option String
  attempts : Nat
  sleeps : List ℚ
deriving DecidableEq

/-- The `while attempt <= max_retries` loop of `post_with_retries`
(lines 75-93).  `attempt` is the loop counter, `fuel` the number of remaining
iterations (`max_retries + 1 - attempt`); `fuel = 0` is the fall-through
`return False, None, None`.  A qualifying response returns
`(True, status, r.text[:200])` at once; otherwise (bad status or exception)
the counter is incremented and `time.sleep(backoff_base ** attempt +
random.random())` runs with the incremented counter before the next
iteration — including after the final failed attempt. -/
def postLoop (oracle : Nat → AttemptOutcome) (jitter : Nat → ℚ)
    (backoff_base : ℚ) : Nat → Nat → PostResult
  | _, 0 => ⟨false, none, none, 0, []⟩
  | attempt, fuel + 1 =>
    match oracle attempt with
    | AttemptOutcome.response status body =>
      if 200 ≤ status ∧ status < 400 then
        ⟨true, some status, some (body.take 200), 1, []⟩
      else
        let rest := postLoop oracle jitter backoff_base (attempt + 1) fuel
        ⟨rest.success, rest.status, rest.preview, rest.attempts + 1,
          (backoff_base ^ (attempt + 1) + jitter attempt) :: rest.sleeps⟩
    | AttemptOutcome.exception =>
      let rest := postLoop oracle jitter backoff_base (attempt + 1) fuel
      ⟨rest.success, rest.status, rest.preview, rest.attempts + 1,
        (backoff_base ^ (attempt + 1) + jitter attempt) :: rest.sleeps⟩

/-- `post_with_retries` from `auto_submit_gform.py`: run the retry loop from
`attempt = 0`, so at most `max_retries + 1` underlying attempts.  The
`session`, headers and `timeout` argument only parameterize the network
effect and live inside the oracle. -/
def post_with_retries (oracle : Nat → AttemptOutcome) (jitter : Nat → ℚ)
    (backoff_base : ℚ) (max_retries : Nat) : PostResult :=
  postLoop oracle jitter backoff_base 0 (max_retries + 1)

/-- An endpoint that answers HTTP 500 on every attempt. -/
def c3_oracle : Nat → AttemptOutcome := fun _ =>
  AttemptOutcome.response 500 "server error"

/-- An endpoint that fails the first 2 attempts with HTTP 500, then answers
HTTP 200. -/
def c6_oracle : Nat → AttemptOutcome := fun i =>
  if i < 2 then AttemptOutcome.response 500 "err" else AttemptOutcome.response 200 "ok"

/-- An endpoint whose attempts always raise a transport exception. -/
def c7_oracle : Nat → AttemptOutcome := fun _ => AttemptOutcome.exception

/-- An endpoint that answers HTTP 503 on every attempt. -/
def c10_oracle : Nat → AttemptOutcome := fun _ =>
  AttemptOutcome.response 503 "unavailable"

/-- The loaded source table `df = pd.read_csv(csv_path, dtype=str).fillna("")`
(line 143): a header (column names) plus rows, each row an association list
from column name to string value. -/
structure Table where
  columns : List String
  rows : List (List (String × String))
deriving DecidableEq

/-- `row.get(human_col, "")` on a pandas row: the first value under the
column name, or the empty string.  With `fillna("")` applied at load, the
NaN-to-empty-string case of `build_payload_from_row` is folded in. -/
def rowGet (row : List (String × String)) (col : String) : String :=
  ((row.find? fun kv => kv.1 == col).map fun kv => kv.2).getD ""

/-- `build_payload_from_row` (lines 66-73): one `(entry_name, value)` pair
per mapping item, in mapping order, with missing values rendered as the
empty string, never omitted.  (A Python dict would keep only the last value
under a duplicated `entry_name`; the claims never exercise
duplicate-target mappings.) -/
def build_payload_from_row (row : List (String × String))
    (mapping : List (String × String)) : List (String × String) :=
  mapping.map fun hm => (hm.2, rowGet row hm.1)

/-- `validate_headers` (lines 62-64): the required keys absent from the
table's columns, in order. -/
def validate_headers (df : Table) (required_keys : List String) : List String :=
  required_keys.filter fun k => !(df.columns.contains k)

/-- One dry-run preview line (line 167): the payload for a row with each
value truncated to 120 characters. -/
def dry_preview (row : List (String × String))
    (mapping : List (String × String)) : List (String × String) :=
  (build_payload_from_row row mapping).map fun kv => (kv.1, kv.2.take 120)

/-- The iteration range of `main` (lines 159-161): `range(start_index,
total)`, capped to `range(start_index, min(start_index + test_rows, total))`
when `--test-rows` is positive. -/
def iteration_indices (start_index total test_rows : Nat) : List Nat :=
  if 0 < test_rows then
    List.range' start_index (min (start_index + test_rows) total - start_index)
  else
    List.range' start_index (total - start_index)

/-- The CLI knobs of `main` consumed past argument parsing (delay and jitter
only shape the unrecorded inter-row throttle sleep). -/
structure MainArgs where
  test_rows : Nat
  dry_run : Bool
  resume : Bool
  max_retries : Nat
deriving DecidableEq

/-- Observable outcome of one `main` invocation: the ledger rows appended by
`write_log_row` in order, the number of `post_with_retries` calls made (each
one network activity), the dry-run payload previews printed, whether the run
aborted on missing columns, and whether an uncaught exception escaped (in
the modelled fragment only the resume-path `pd.read_csv` can raise). -/
structure RunResult where
  writes : List LogRecord
  posts : Nat
  previews : List (Nat × List (String × String))
  aborted_missing_columns : Bool
  crashed : Bool
deriving DecidableEq

/-- One live-loop iteration of `main` (lines 171-179): build the payload for
row `i`, call the submitter, and form the ledger record passed to
`write_log_row` (payload preview values truncated to 140 characters). -/
def live_record (df : Table) (mapping : List (String × String))
    (oracle : Nat → AttemptOutcome) (jit : Nat → ℚ) (backoff_base : ℚ)
    (max_retries : Nat) (i : Nat) : LogRecord :=
  { row_index := i
    name := rowGet (df.rows.getD i []) "Name"
    email := rowGet (df.rows.getD i []) "Email"
    success := (post_with_retries oracle jit backoff_base max_retries).success
    status := (post_with_retries oracle jit backoff_base max_retries).status
    preview := (build_payload_from_row (df.rows.getD i []) mapping).map
      fun kv => (kv.1, kv.2.take 140) }

/-- `main` from `auto_submit_gform.py` (lines 116-182), entered after CSV
load and config resolution (the excluded CLI/config layer): header
validation aborts the run on missing columns; otherwise the resume point is
read when `--resume` was given (a `pd.read_csv` raise crashes the run before
any write); then either the dry-run branch previews at most the first 5
payloads of the range and returns, or the live loop runs one submission and
one ledger append per row.  `oracle i` / `jit i` are the network responses
and jitter draws used for row `i`. -/
def main_driver (df : Table) (mapping : List (String × String)) (args : MainArgs)
    (ledger0 : LedgerFile) (oracle : Nat → Nat → AttemptOutcome)
    (jit : Nat → Nat → ℚ) (backoff_base : ℚ) : RunResult :=
  if !(validate_headers df (mapping.map fun hm => hm.1)).isEmpty then
    ⟨[], 0, [], true, false⟩
  else
    match (if args.resume then read_resume_index ledger0 else Except.ok 0) with
    | Except.error _ => ⟨[], 0, [], false, true⟩
    | Except.ok start_index =>
      if args.dry_run then
        ⟨[], 0,
          ((iteration_indices start_index df.rows.length args.test_rows).take 5).map
            fun i => (i, dry_preview (df.rows.getD i []) mapping),
          false, false⟩
      else
        ⟨(iteration_indices start_index df.rows.length args.test_rows).map
            fun i => live_record df mapping (oracle i) (jit i) backoff_base
              args.max_retries i,
          (iteration_indices start_index df.rows.length args.test_rows).length,
          [], false, false⟩

/-- A two-column, two-row source table for the driver witnesses. -/
def ex_table : Table :=
  ⟨["Name", "Email"],
    [[("Name", "Ann"), ("Email", "ann@x")], [("Name", "Bob"), ("Email", "bob@x")]]⟩

/-- The mapping `Name → entry.1`, `Email → emailAddress`. -/
def ex_mapping : List (String × String) :=
  [("Name", "entry.1"), ("Email", "emailAddress")]

lemma foldl_max_zero_eq_max? (l : List Nat) (hl : l ≠ []) :
    some (l.foldl max 0) = l.max? := by
  cases l with
  | nil => exact absurd rfl hl
  | cons a as =>
    rw [List.max?_cons', List.foldl_cons, Nat.zero_max]

/-- C1.  Resume-point law: on an absent ledger the resume point is 0, and on
any parsed ledger carrying both columns it is `1 + max row_index` over the
records with `success = true`, and 0 when there is no such record
(`Option.elim` of `List.max?`, which is `none` exactly on the empty list).
Quantifying over every record list covers every state reachable by
arbitrary sequences of partial runs. -/
theorem read_resume_index_law (records : List LogRecord) :
    read_resume_index LedgerFile.absent = Except.ok 0 ∧
    read_resume_index (LedgerFile.parsed true true records) =
      Except.ok
        ((((records.filter fun r => r.success).map fun r => r.row_index).max?).elim
          0 (fun m => m + 1)) := by
  refine ⟨rfl, ?_⟩
  simp only [read_resume_index, Bool.not_true, Bool.or_self, Bool.false_eq_true,
    if_false, if_neg]
  by_cases h : (records.filter fun r => r.success) = []
  · simp [h]
  · have hne : ((records.filter fun r => r.success).map fun r => r.row_index) ≠ [] := by
      simpa using h
    rw [← foldl_max_zero_eq_max? _ hne]
    simp [List.isEmpty_iff, h]

/-- C9 counterexample.  The claim says every malformed resume source degrades
to resume point 0, but `read_resume_index` wraps `pd.read_csv` in no
try/except: on a file that cannot be tokenized (e.g. the ragged content
`timestamp,row_index` / `1,2` / `1,2,3`) the `ParserError` propagates and the
run fails instead of starting from index 0. -/
theorem read_resume_index_corruption_counterexample :
    read_resume_index LedgerFile.unparseable ≠ Except.ok 0 := by
  simp [read_resume_index]

/-- C9 amended: an absent ledger file, or one that parses but lacks the
`success` or `row_index` column, degrades to resume point 0; a ledger file
that `pd.read_csv` cannot parse at all makes `read_resume_index` raise,
failing the run. -/
theorem read_resume_index_corruption (hasRowIndex hasSuccess : Bool)
    (records : List LogRecord)
    (h : hasRowIndex = false ∨ hasSuccess = false) :
    read_resume_index (LedgerFile.parsed hasRowIndex hasSuccess records) =
      Except.ok 0 ∧
    read_resume_index LedgerFile.absent = Except.ok 0 ∧
    ∃ e, read_resume_index LedgerFile.unparseable = Except.error e := by
  refine ⟨?_, rfl, "pandas.errors.ParserError", rfl⟩
  rcases h with h | h <;> simp [read_resume_index, h]

theorem read_resume_index_corruption_witness :
    read_resume_index (LedgerFile.parsed false true []) = Except.ok 0 ∧
    read_resume_index LedgerFile.absent = Except.ok 0 ∧
    ∃ e, read_resume_index LedgerFile.unparseable = Except.error e :=
  read_resume_index_corruption false true [] (Or.inl rfl)

/-- C2 counterexample.  Ledger `c2_log` holds, for row index 0, a failure
record followed by a success record, with a one-row source table.  The claim
says a row that ever failed is a retry candidate only when no later record
shows success, so here the retry-candidate set should be empty; but the code
unions the missing set with the indices of **all** failure records, so index
0 is retried and the retry table contains the source row. -/
theorem retry_candidates_counterexample :
    missing_indices c2_log 1 = [] ∧
    failed_indices c2_log 1 = [0] ∧
    failed_rows [[("Name", "A")]] c2_log = Except.ok [[("Name", "A")]] ∧
    c2_log.get? 1 = some ⟨0, "A", "a@x", true, some 200, []⟩ := by
  refine ⟨by decide, by decide, rfl, by decide⟩

/-- C2 amended: the missing indices are exactly `{0..N-1}` minus the indices
having some `success = true` record; the retry-candidate index list is
exactly the union of the missing indices with the indices of **every** record
whose `success` is false — a row that ever failed stays a retry candidate
even when a later record shows success for that index.  When every
retry-candidate index is below the source length, the retry-candidate table
holds exactly the source rows at those indices; when some retry-candidate
index is out of range, building the table raises (`IndexError` from pandas
`.iloc`). -/
theorem retry_candidates_law (log : List LogRecord) (N : Nat) :
    (∀ i, i ∈ missing_indices log N ↔
      i < N ∧ ∀ r ∈ log, r.success = true → r.row_index ≠ i) ∧
    (∀ i, i ∈ failed_indices log N ↔
      (i ∈ missing_indices log N ∨ ∃ r ∈ log, r.success = false ∧ r.row_index = i)) ∧
    (∀ (src : List (List (String × String))),
      ((∀ i ∈ failed_indices log src.length, i < src.length) →
        ∃ rows, failed_rows src log = Except.ok rows ∧
          ∀ x, x ∈ rows ↔
            ∃ i ∈ failed_indices log src.length, src.get? i = some x) ∧
      ((∃ i ∈ failed_indices log src.length, src.length ≤ i) →
        ∃ e, failed_rows src log = Except.error e)) := by
  refine ⟨fun i => ?_, fun i => ?_, fun src => ?_⟩
  · simp only [missing_indices, List.mem_filter, List.mem_range, List.contains,
      List.elem_eq_mem, Bool.not_eq_true', decide_eq_false_iff_not,
      List.mem_map, List.mem_filter]
    constructor
    · rintro ⟨hi, hna⟩
      refine ⟨hi, fun r hr hs hidx => ?_⟩
      exact hna ⟨r, ⟨hr, hs⟩, hidx⟩
    · rintro ⟨hi, hall⟩
      refine ⟨hi, ?_⟩
      rintro ⟨r, ⟨hr, hs⟩, hidx⟩
      exact hall r hr hs hidx
  · simp only [failed_indices, List.mem_insertionSort, List.mem_dedup,
      List.mem_append, List.mem_map, List.mem_filter, Bool.not_eq_true']
    constructor
    · rintro (h | ⟨r, ⟨hr, hs⟩, hidx⟩)
      · exact Or.inl h
      · exact Or.inr ⟨r, hr, hs, hidx⟩
    · rintro (h | ⟨r, hr, hs, hidx⟩)
      · exact Or.inl h
      · exact Or.inr ⟨r, ⟨hr, hs⟩, hidx⟩
  · constructor
    · intro hall
      refine ⟨(failed_indices log src.length).pmap
        (fun i hi => src.get ⟨i, hi⟩) hall, ?_, ?_⟩
      · unfold failed_rows
        rw [dif_pos hall]
      · intro x
        rw [List.mem_pmap]
        constructor
        · rintro ⟨i, hi, hx⟩
          refine ⟨i, hi, ?_⟩
          rw [List.get?_eq_get (hall i hi), hx]
        · rintro ⟨i, hi, hx⟩
          refine ⟨i, hi, ?_⟩
          rw [List.get?_eq_get (hall i hi)] at hx
          exact Option.some.inj hx
    · rintro ⟨i, hi, hout⟩
      refine ⟨"IndexError: positional indexers are out-of-bounds", ?_⟩
      unfold failed_rows
      rw [dif_neg fun hall => absurd (hall i hi) (by omega)]

lemma postLoop_fail_step (oracle : Nat → AttemptOutcome) (jitter : Nat → ℚ)
    (b : ℚ) (a fuel : Nat) (h : qualifies (oracle a) = false) :
    postLoop oracle jitter b a (fuel + 1) =
      ⟨(postLoop oracle jitter b (a + 1) fuel).success,
        (postLoop oracle jitter b (a + 1) fuel).status,
        (postLoop oracle jitter b (a + 1) fuel).preview,
        (postLoop oracle jitter b (a + 1) fuel).attempts + 1,
        (b ^ (a + 1) + jitter a) ::
          (postLoop oracle jitter b (a + 1) fuel).sleeps⟩ := by
  rw [postLoop]
  cases ho : oracle a with
  | exception => rfl
  | response s body =>
    rw [ho] at h
    simp only [qualifies, decide_eq_false_iff_not] at h
    simp [h]

lemma sleeps_shift (b : ℚ) (jitter : Nat → ℚ) (a n : Nat) :
    (b ^ (a + 1) + jitter a) ::
        ((List.range n).map fun u => b ^ (a + 1 + u + 1) + jitter (a + 1 + u)) =
      (List.range (n + 1)).map fun u => b ^ (a + u + 1) + jitter (a + u) := by
  rw [List.range_succ_eq_map, List.map_cons, List.map_map]
  congr 1
  apply List.map_congr_left
  intro u hu
  have h1 : a + 1 + u + 1 = a + (u + 1) + 1 := by omega
  have h2 : a + 1 + u = a + (u + 1) := by omega
  simp [Function.comp, h1, h2]

lemma postLoop_all_fail (oracle : Nat → AttemptOutcome) (jitter : Nat → ℚ)
    (b : ℚ) :
    ∀ fuel a : Nat, (∀ i, i < fuel → qualifies (oracle (a + i)) = false) →
      postLoop oracle jitter b a fuel =
        ⟨false, none, none, fuel,
          (List.range fuel).map fun u => b ^ (a + u + 1) + jitter (a + u)⟩ := by
  intro fuel
  induction fuel with
  | zero =>
    intro a _
    simp [postLoop]
  | succ fuel ih =>
    intro a h
    have h0 : qualifies (oracle a) = false := by
      have := h 0 (Nat.succ_pos _)
      simpa using this
    have ihs := ih (a + 1) fun i hi => by
      have hh := h (i + 1) (by omega)
      have harr : a + (i + 1) = a + 1 + i := by omega
      rw [harr] at hh
      exact hh
    rw [postLoop_fail_step oracle jitter b a fuel h0, ihs]
    rw [sleeps_shift b jitter a fuel]

lemma postLoop_first_success (oracle : Nat → AttemptOutcome) (jitter : Nat → ℚ)
    (b : ℚ) :
    ∀ t a fuel s body, t < fuel →
      (∀ i, i < t → qualifies (oracle (a + i)) = false) →
      oracle (a + t) = AttemptOutcome.response s body → 200 ≤ s → s < 400 →
      postLoop oracle jitter b a fuel =
        ⟨true, some s, some (body.take 200), t + 1,
          (List.range t).map fun u => b ^ (a + u + 1) + jitter (a + u)⟩ := by
  intro t
  induction t with
  | zero =>
    intro a fuel s body hlt _ ho h2 h4
    cases fuel with
    | zero => omega
    | succ fuel =>
      rw [Nat.add_zero] at ho
      rw [postLoop, ho]
      simp [h2, h4]
  | succ t ih =>
    intro a fuel s body hlt hfail ho h2 h4
    cases fuel with
    | zero => omega
    | succ fuel =>
      have h0 : qualifies (oracle a) = false := by
        have := hfail 0 (Nat.succ_pos _)
        simpa using this
      have ihs := ih (a + 1) fuel s body (by omega)
        (fun i hi => by
          have hh := hfail (i + 1) (by omega)
          have harr : a + (i + 1) = a + 1 + i := by omega
          rw [harr] at hh
          exact hh)
        (by
          have harr : a + (t + 1) = a + 1 + t := by omega
          rw [harr] at ho
          exact ho)
        h2 h4
      rw [postLoop_fail_step oracle jitter b a fuel h0, ihs]
      rw [sleeps_shift b jitter a t]

lemma qualifies_eq_true (o : AttemptOutcome) (h : qualifies o = true) :
    ∃ s body, o = AttemptOutcome.response s body ∧ 200 ≤ s ∧ s < 400 := by
  cases o with
  | response s body =>
    simp only [qualifies, decide_eq_true_eq] at h
    exact ⟨s, body, rfl, h.1, h.2⟩
  | exception =>
    simp [qualifies] at h

lemma exists_first_qualifying (oracle : Nat → AttemptOutcome) (j : Nat)
    (hq : qualifies (oracle j) = true) :
    ∃ j0, j0 ≤ j ∧ qualifies (oracle j0) = true ∧
      ∀ i, i < j0 → qualifies (oracle i) = false := by
  have hex : ∃ i, qualifies (oracle i) = true := ⟨j, hq⟩
  refine ⟨Nat.find hex, Nat.find_min' hex hq, Nat.find_spec hex, fun i hi => ?_⟩
  exact Bool.eq_false_iff.mpr (Nat.find_min hex hi)

lemma post_with_retries_sleeps_form (oracle : Nat → AttemptOutcome)
    (jitter : Nat → ℚ) (b : ℚ) (max_retries : Nat) :
    ∃ m, m ≤ max_retries + 1 ∧
      (post_with_retries oracle jitter b max_retries).sleeps =
        (List.range m).map fun u => b ^ (u + 1) + jitter u := by
  by_cases hex : ∃ j, j ≤ max_retries ∧ qualifies (oracle j) = true
  · obtain ⟨j, hj, hq⟩ := hex
    obtain ⟨j0, hj0j, hq0, hmin⟩ := exists_first_qualifying oracle j hq
    obtain ⟨s, body, ho, h2, h4⟩ := qualifies_eq_true _ hq0
    have heq := postLoop_first_success oracle jitter b j0 0 (max_retries + 1) s body
      (by omega) (fun i hi => by rw [Nat.zero_add]; exact hmin i hi)
      (by rw [Nat.zero_add]; exact ho) h2 h4
    refine ⟨j0, by omega, ?_⟩
    rw [post_with_retries, heq]
    simp
  · push_neg at hex
    have hall : ∀ i, i < max_retries + 1 → qualifies (oracle (0 + i)) = false := by
      intro i hi
      rw [Nat.zero_add]
      exact Bool.eq_false_iff.mpr (hex i (by omega))
    have heq := postLoop_all_fail oracle jitter b (max_retries + 1) 0 hall
    refine ⟨max_retries + 1, le_refl _, ?_⟩
    rw [post_with_retries, heq]
    simp

/-- C8.  Submitter totality and success classification: the embedding of
`post_with_retries` is a total function — a raised transport exception is
caught, classified as a failed attempt, and the loop continues — and a call
returns success exactly when some attempt within the `max_retries + 1`
budget produced a response whose HTTP status lies in [200, 400); in
particular an exception attempt never counts as success. -/
theorem submit_total_classification (oracle : Nat → AttemptOutcome)
    (jitter : Nat → ℚ) (b : ℚ) (max_retries : Nat) :
    (post_with_retries oracle jitter b max_retries).success = true ↔
      ∃ j, j ≤ max_retries ∧ ∃ s body,
        oracle j = AttemptOutcome.response s body ∧ 200 ≤ s ∧ s < 400 := by
  constructor
  · intro hs
    by_contra hne
    push_neg at hne
    have hall : ∀ i, i < max_retries + 1 → qualifies (oracle (0 + i)) = false := by
      intro i hi
      rw [Nat.zero_add]
      cases ho : oracle i with
      | exception => rfl
      | response s body =>
        simp only [qualifies]
        apply decide_eq_false
        rintro ⟨ha, hb⟩
        have := hne i (by omega) s body ho ha
        omega
    have heq := postLoop_all_fail oracle jitter b (max_retries + 1) 0 hall
    rw [post_with_retries, heq] at hs
    simp at hs
  · rintro ⟨j, hj, s, body, ho, h2, h4⟩
    have hq : qualifies (oracle j) = true := by
      rw [ho]
      simp [qualifies, h2, h4]
    obtain ⟨j0, hj0, hq0, hmin⟩ := exists_first_qualifying oracle j hq
    obtain ⟨s0, body0, ho0, h20, h40⟩ := qualifies_eq_true _ hq0
    have heq := postLoop_first_success oracle jitter b j0 0 (max_retries + 1) s0 body0
      (by omega) (fun i hi => by rw [Nat.zero_add]; exact hmin i hi)
      (by rw [Nat.zero_add]; exact ho0) h20 h40
    rw [post_with_retries, heq]

/-- C6.  Retry count law: against an endpoint whose first `k` attempts fail
and whose attempt `k` (0-indexed, i.e. the `k+1`-st underlying attempt)
qualifies, the call returns success after exactly `k + 1` underlying attempts
when `k ≤ max_retries`, and returns failure after exactly `max_retries + 1`
underlying attempts when the success would arrive only after attempt
`max_retries + 1`. -/
theorem retry_count_law (oracle : Nat → AttemptOutcome) (jitter : Nat → ℚ)
    (b : ℚ) (max_retries k : Nat)
    (hfail : ∀ i, i < k → qualifies (oracle i) = false)
    (hsucc : qualifies (oracle k) = true) :
    (k ≤ max_retries →
      (post_with_retries oracle jitter b max_retries).success = true ∧
      (post_with_retries oracle jitter b max_retries).attempts = k + 1) ∧
    (max_retries < k →
      (post_with_retries oracle jitter b max_retries).success = false ∧
      (post_with_retries oracle jitter b max_retries).attempts = max_retries + 1) := by
  obtain ⟨s, body, ho, h2, h4⟩ := qualifies_eq_true _ hsucc
  constructor
  · intro hk
    have heq := postLoop_first_success oracle jitter b k 0 (max_retries + 1) s body
      (by omega) (fun i hi => by rw [Nat.zero_add]; exact hfail i hi)
      (by rw [Nat.zero_add]; exact ho) h2 h4
    rw [post_with_retries, heq]
    exact ⟨rfl, rfl⟩
  · intro hk
    have hall : ∀ i, i < max_retries + 1 → qualifies (oracle (0 + i)) = false := by
      intro i hi
      rw [Nat.zero_add]
      exact hfail i (by omega)
    have heq := postLoop_all_fail oracle jitter b (max_retries + 1) 0 hall
    rw [post_with_retries, heq]
    exact ⟨rfl, rfl⟩

theorem retry_count_law_witness :
    (post_with_retries c6_oracle (fun _ => 0) 2 5).success = true ∧
    (post_with_retries c6_oracle (fun _ => 0) 2 5).attempts = 3 :=
  (retry_count_law c6_oracle (fun _ => 0) 2 5 2 (by decide) (by decide)).1
    (by omega)

/-- C3 counterexample.  Against an endpoint that answers HTTP 500 on every
attempt (so the last attempt returned a status and did not raise), the
exhausted call returns `(False, None, None)`: the status slot is `none`, not
the last attempt's 500 as the claim states — line 93 of
`auto_submit_gform.py` is `return False, None, None` unconditionally. -/
theorem post_exhaustion_counterexample :
    (post_with_retries c3_oracle (fun _ => 0) 2 1).success = false ∧
    (post_with_retries c3_oracle (fun _ => 0) 2 1).status = none ∧
    c3_oracle 1 = AttemptOutcome.response 500 "server error" :=
  ⟨rfl, rfl, rfl⟩

/-- C3 amended: when no attempt within the `max_retries + 1` budget
qualifies, `post_with_retries` returns `(False, None, None)` — the status of
the last attempt is discarded even when the last attempt returned one — and
on the first attempt whose status lies in [200, 400) it returns
`(True, that status, the response body truncated to 200 characters)`. -/
theorem post_with_retries_return (oracle : Nat → AttemptOutcome)
    (jitter : Nat → ℚ) (b : ℚ) (max_retries : Nat) :
    ((∀ j, j ≤ max_retries → qualifies (oracle j) = false) →
      (post_with_retries oracle jitter b max_retries).success = false ∧
      (post_with_retries oracle jitter b max_retries).status = none ∧
      (post_with_retries oracle jitter b max_retries).preview = none) ∧
    (∀ j s body, j ≤ max_retries →
      (∀ i, i < j → qualifies (oracle i) = false) →
      oracle j = AttemptOutcome.response s body → 200 ≤ s → s < 400 →
      (post_with_retries oracle jitter b max_retries).success = true ∧
      (post_with_retries oracle jitter b max_retries).status = some s ∧
      (post_with_retries oracle jitter b max_retries).preview =
        some (body.take 200)) := by
  constructor
  · intro h
    have hall : ∀ i, i < max_retries + 1 → qualifies (oracle (0 + i)) = false := by
      intro i hi
      rw [Nat.zero_add]
      exact h i (by omega)
    rw [post_with_retries, postLoop_all_fail oracle jitter b (max_retries + 1) 0 hall]
    exact ⟨rfl, rfl, rfl⟩
  · intro j s body hj hmin ho h2 h4
    rw [post_with_retries, postLoop_first_success oracle jitter b j 0
      (max_retries + 1) s body (by omega)
      (fun i hi => by rw [Nat.zero_add]; exact hmin i hi)
      (by rw [Nat.zero_add]; exact ho) h2 h4]
    exact ⟨rfl, rfl, rfl⟩

theorem post_with_retries_return_witness :
    (post_with_retries (fun _ => AttemptOutcome.response 200 "hello")
        (fun _ => 0) 2 5).success = true ∧
    (post_with_retries (fun _ => AttemptOutcome.response 200 "hello")
        (fun _ => 0) 2 5).status = some 200 ∧
    (post_with_retries (fun _ => AttemptOutcome.response 200 "hello")
        (fun _ => 0) 2 5).preview = some ("hello".take 200) :=
  (post_with_retries_return (fun _ => AttemptOutcome.response 200 "hello")
    (fun _ => 0) 2 5).2 0 200 "hello" (by omega)
    (fun i hi => absurd hi (Nat.not_lt_zero i)) rfl (by omega) (by omega)

/-- C7.  Backoff schedule: every delay the call sleeps has the form
`backoff_base ^ n + jitter` with the `n`-th fresh `random.random()` draw as
jitter and no upper cap: the sleep at trace position `n` (0-indexed — it runs
after the `n+1`-st failed attempt, hence immediately before retry `n+1`,
retries 1-indexed) equals `backoff_base ^ (n + 1) + jitter n`.  So, indexing
the delayed (retry) attempts from 1, the delay slept before attempt `n` is
`backoff_base ^ n` plus a fresh draw from [0, 1). -/
theorem backoff_schedule (oracle : Nat → AttemptOutcome) (jitter : Nat → ℚ)
    (b : ℚ) (max_retries n : Nat)
    (h : n < (post_with_retries oracle jitter b max_retries).sleeps.length) :
    (post_with_retries oracle jitter b max_retries).sleeps.get? n =
      some (b ^ (n + 1) + jitter n) := by
  obtain ⟨m, hm, hs⟩ := post_with_retries_sleeps_form oracle jitter b max_retries
  rw [hs] at h ⊢
  rw [List.length_map, List.length_range] at h
  rw [List.get?_map, List.get?_range h]
  rfl

theorem backoff_schedule_witness :
    (post_with_retries c7_oracle (fun _ => 1 / 2) 2 1).sleeps.get? 0 =
      some (2 ^ (0 + 1) + (fun _ => (1 : ℚ) / 2) 0) :=
  backoff_schedule c7_oracle (fun _ => 1 / 2) 2 1 0 (by decide)

/-- C10.  Trailing sleep on exhaustion: when no attempt qualifies, the call
performs `max_retries + 1` attempts and `max_retries + 1` backoff sleeps —
one after every failed attempt including the final one — so the last sleep,
of `backoff_base ^ (max_retries + 1) + jitter`, runs even though no further
attempt follows it, before `(False, None, None)` is returned. -/
theorem trailing_backoff_sleep (oracle : Nat → AttemptOutcome)
    (jitter : Nat → ℚ) (b : ℚ) (max_retries : Nat)
    (h : ∀ j, j ≤ max_retries → qualifies (oracle j) = false) :
    (post_with_retries oracle jitter b max_retries).attempts = max_retries + 1 ∧
    (post_with_retries oracle jitter b max_retries).sleeps.length = max_retries + 1 ∧
    (post_with_retries oracle jitter b max_retries).sleeps.get? max_retries =
      some (b ^ (max_retries + 1) + jitter max_retries) := by
  have hall : ∀ i, i < max_retries + 1 → qualifies (oracle (0 + i)) = false := by
    intro i hi
    rw [Nat.zero_add]
    exact h i (by omega)
  rw [post_with_retries, postLoop_all_fail oracle jitter b (max_retries + 1) 0 hall]
  refine ⟨rfl, by simp, ?_⟩
  rw [List.get?_map, List.get?_range (by omega)]
  simp

theorem trailing_backoff_sleep_witness :
    (post_with_retries c10_oracle (fun _ => 0) 2 1).attempts = 2 ∧
    (post_with_retries c10_oracle (fun _ => 0) 2 1).sleeps.length = 2 ∧
    (post_with_retries c10_oracle (fun _ => 0) 2 1).sleeps.get? 1 =
      some (2 ^ (1 + 1) + (fun _ => (0 : ℚ)) 1) :=
  trailing_backoff_sleep c10_oracle (fun _ => 0) 2 1 (by decide)

lemma main_missing_eq (df : Table) (mapping : List (String × String))
    (args : MainArgs) (ledger0 : LedgerFile) (oracle : Nat → Nat → AttemptOutcome)
    (jit : Nat → Nat → ℚ) (b : ℚ)
    (h : validate_headers df (mapping.map fun hm => hm.1) ≠ []) :
    main_driver df mapping args ledger0 oracle jit b = ⟨[], 0, [], true, false⟩ := by
  have hne : (validate_headers df (mapping.map fun hm => hm.1)).isEmpty = false := by
    simp [List.isEmpty_iff, h]
  unfold main_driver
  rw [hne]
  rfl

lemma main_error_eq (df : Table) (mapping : List (String × String))
    (args : MainArgs) (ledger0 : LedgerFile) (oracle : Nat → Nat → AttemptOutcome)
    (jit : Nat → Nat → ℚ) (b : ℚ) (e : String)
    (hmiss : validate_headers df (mapping.map fun hm => hm.1) = [])
    (hres : (if args.resume then read_resume_index ledger0 else Except.ok 0) =
      Except.error e) :
    main_driver df mapping args ledger0 oracle jit b = ⟨[], 0, [], false, true⟩ := by
  unfold main_driver
  rw [hmiss, hres]
  rfl

lemma main_ok_eq (df : Table) (mapping : List (String × String))
    (args : MainArgs) (ledger0 : LedgerFile) (oracle : Nat → Nat → AttemptOutcome)
    (jit : Nat → Nat → ℚ) (b : ℚ) (start_index : Nat)
    (hmiss : validate_headers df (mapping.map fun hm => hm.1) = [])
    (hres : (if args.resume then read_resume_index ledger0 else Except.ok 0) =
      Except.ok start_index) :
    main_driver df mapping args ledger0 oracle jit b =
      if args.dry_run then
        ⟨[], 0,
          ((iteration_indices start_index df.rows.length args.test_rows).take 5).map
            fun i => (i, dry_preview (df.rows.getD i []) mapping),
          false, false⟩
      else
        ⟨(iteration_indices start_index df.rows.length args.test_rows).map
            fun i => live_record df mapping (oracle i) (jit i) b args.max_retries i,
          (iteration_indices start_index df.rows.length args.test_rows).length,
          [], false, false⟩ := by
  unfold main_driver
  rw [hmiss, hres]
  rfl

/-- C4.  Dry-run law: a dry-run invocation of the driver writes nothing to
the ledger (so the ledger file stays byte-identical), performs no network
call, and previews at most the first 5 rows of the iteration range; when the
run gets past header validation and the resume read, the previews are
exactly the dry-run payloads of the first 5 indices of the range.  This
holds for every source table, iteration range and prior ledger state. -/
theorem dry_run_law (df : Table) (mapping : List (String × String))
    (args : MainArgs) (ledger0 : LedgerFile) (oracle : Nat → Nat → AttemptOutcome)
    (jit : Nat → Nat → ℚ) (b : ℚ) (hdry : args.dry_run = true) :
    (main_driver df mapping args ledger0 oracle jit b).writes = [] ∧
    (main_driver df mapping args ledger0 oracle jit b).posts = 0 ∧
    (main_driver df mapping args ledger0 oracle jit b).previews.length ≤ 5 ∧
    (∀ start_index,
      validate_headers df (mapping.map fun hm => hm.1) = [] →
      (if args.resume then read_resume_index ledger0 else Except.ok 0) =
        Except.ok start_index →
      (main_driver df mapping args ledger0 oracle jit b).previews =
        ((iteration_indices start_index df.rows.length args.test_rows).take 5).map
          fun i => (i, dry_preview (df.rows.getD i []) mapping)) := by
  by_cases hmiss : validate_headers df (mapping.map fun hm => hm.1) = []
  · cases hres : (if args.resume then read_resume_index ledger0 else Except.ok 0) with
    | error e =>
      rw [main_error_eq df mapping args ledger0 oracle jit b e hmiss hres]
      refine ⟨rfl, rfl, by simp, ?_⟩
      intro start _ hok
      exact absurd hok (by simp)
    | ok start =>
      rw [main_ok_eq df mapping args ledger0 oracle jit b start hmiss hres,
        if_pos hdry]
      refine ⟨rfl, rfl, ?_, ?_⟩
      · simp only [List.length_map, List.length_take]
        exact Nat.min_le_left _ _
      · intro start2 _ hok
        injection hok with hst
        subst hst
        rfl
  · rw [main_missing_eq df mapping args ledger0 oracle jit b hmiss]
    refine ⟨rfl, rfl, by simp, ?_⟩
    intro start hv _
    exact absurd hv hmiss

theorem dry_run_law_witness :
    (main_driver ex_table ex_mapping ⟨0, true, false, 5⟩ LedgerFile.absent
        (fun _ _ => AttemptOutcome.exception) (fun _ _ => 0) 2).writes = [] ∧
    (main_driver ex_table ex_mapping ⟨0, true, false, 5⟩ LedgerFile.absent
        (fun _ _ => AttemptOutcome.exception) (fun _ _ => 0) 2).posts = 0 ∧
    (main_driver ex_table ex_mapping ⟨0, true, false, 5⟩ LedgerFile.absent
        (fun _ _ => AttemptOutcome.exception) (fun _ _ => 0) 2).previews.length ≤ 5 :=
  ⟨(dry_run_law ex_table ex_mapping ⟨0, true, false, 5⟩ LedgerFile.absent
      (fun _ _ => AttemptOutcome.exception) (fun _ _ => 0) 2 rfl).1,
    (dry_run_law ex_table ex_mapping ⟨0, true, false, 5⟩ LedgerFile.absent
      (fun _ _ => AttemptOutcome.exception) (fun _ _ => 0) 2 rfl).2.1,
    (dry_run_law ex_table ex_mapping ⟨0, true, false, 5⟩ LedgerFile.absent
      (fun _ _ => AttemptOutcome.exception) (fun _ _ => 0) 2 rfl).2.2.1⟩

/-- C5.  Column-presence precondition: if any human-column key of the field
mapping is absent from the source table's columns, the driver aborts before
processing any row — no ledger record is written, no submission attempted,
no preview printed. -/
theorem column_precondition (df : Table) (mapping : List (String × String))
    (args : MainArgs) (ledger0 : LedgerFile) (oracle : Nat → Nat → AttemptOutcome)
    (jit : Nat → Nat → ℚ) (b : ℚ)
    (h : ∃ k ∈ mapping.map fun hm => hm.1, k ∉ df.columns) :
    main_driver df mapping args ledger0 oracle jit b = ⟨[], 0, [], true, false⟩ := by
  apply main_missing_eq
  obtain ⟨k, hk, hnc⟩ := h
  intro hv
  have hmem : k ∈ validate_headers df (mapping.map fun hm => hm.1) := by
    simp only [validate_headers, List.mem_filter, List.contains, List.elem_eq_mem,
      Bool.not_eq_true', decide_eq_false_iff_not]
    exact ⟨hk, hnc⟩
  rw [hv] at hmem
  exact absurd hmem (List.not_mem_nil k)

theorem column_precondition_witness :
    main_driver ex_table (("Missing", "entry.9") :: ex_mapping) ⟨0, false, false, 5⟩
        LedgerFile.absent (fun _ _ => AttemptOutcome.exception) (fun _ _ => 0) 2 =
      ⟨[], 0, [], true, false⟩ :=
  column_precondition ex_table (("Missing", "entry.9") :: ex_mapping)
    ⟨0, false, false, 5⟩ LedgerFile.absent (fun _ _ => AttemptOutcome.exception)
    (fun _ _ => 0) 2 ⟨"Missing", by decide, by decide⟩

theorem read_resume_index_law_witness :
    read_resume_index LedgerFile.absent = Except.ok 0 ∧
    read_resume_index (LedgerFile.parsed true true c2_log) =
      Except.ok
        ((((c2_log.filter fun r => r.success).map fun r => r.row_index).max?).elim
          0 (fun m => m + 1)) :=
  read_resume_index_law c2_log

theorem retry_candidates_law_witness :
    (∀ i, i ∈ missing_indices c2_log 1 ↔
      i < 1 ∧ ∀ r ∈ c2_log, r.success = true → r.row_index ≠ i) ∧
    (∀ i, i ∈ failed_indices c2_log 1 ↔
      (i ∈ missing_indices c2_log 1 ∨
        ∃ r ∈ c2_log, r.success = false ∧ r.row_index = i)) ∧
    (∀ (src : List (List (String × String))),
      ((∀ i ∈ failed_indices c2_log src.length, i < src.length) →
        ∃ rows, failed_rows src c2_log = Except.ok rows ∧
          ∀ x, x ∈ rows ↔
            ∃ i ∈ failed_indices c2_log src.length, src.get? i = some x) ∧
      ((∃ i ∈ failed_indices c2_log src.length, src.length ≤ i) →
        ∃ e, failed_rows src c2_log = Except.error e)) :=
  retry_candidates_law c2_log 1

theorem submit_total_classification_witness :
    (post_with_retries c6_oracle (fun _ => 0) 2 5).success = true ↔
      ∃ j, j ≤ 5 ∧ ∃ s body,
        c6_oracle j = AttemptOutcome.response s body ∧ 200 ≤ s ∧ s < 400 :=
  submit_total_classification c6_oracle (fun _ => 0) 2 5
